import Mathlib

/-!
Shallow embedding of the productivity backend (src/src/main.rs).

Each store is a `List` of records; every handler becomes a pure function
from the store's state (and its parsed inputs) to the new state together
with the response payload.  The clock (`Local::now().date_naive()`) and the
random UUID generator (`Uuid::new_v4()`) are passed in explicitly.
Machine integers (`u32`, `u8`) are modelled as `Nat`; `Option<u32>` ids as
`Option Nat`; UUIDs as an abstract identifier type.
-/

namespace Backend

/-- UUIDs are modelled as an abstract identifier with decidable equality. -/
abbrev Uuid := Nat

/-! ## Calendar dates (chrono `NaiveDate`) -/

/-- Embedding of chrono's `NaiveDate`: a year/month/day triple. -/
structure NaiveDate where
  year : Int
  month : Nat
  day : Nat
deriving DecidableEq, Repr

/-- Proleptic Gregorian leap-year rule used by chrono. -/
def isLeapYear (y : Int) : Bool :=
  (y % 4 == 0 && y % 100 != 0) || y % 400 == 0

/-- Number of days in a month of a given year. -/
def daysInMonth (y : Int) (m : Nat) : Nat :=
  if m = 2 then (if isLeapYear y then 29 else 28)
  else if m = 4 ∨ m = 6 ∨ m = 9 ∨ m = 11 then 30
  else 31

/-- `NaiveDate::from_ymd_opt`: `some` exactly when the triple is a real date. -/
def from_ymd_opt (y : Int) (m d : Nat) : Option NaiveDate :=
  if 1 ≤ m ∧ m ≤ 12 ∧ 1 ≤ d ∧ d ≤ daysInMonth y m then some ⟨y, m, d⟩ else none

/-- The day after a given date. -/
def succDay (d : NaiveDate) : NaiveDate :=
  if d.day < daysInMonth d.year d.month then ⟨d.year, d.month, d.day + 1⟩
  else if d.month < 12 then ⟨d.year, d.month + 1, 1⟩
  else ⟨d.year + 1, 1, 1⟩

/-- `date + chrono::Duration::days(n)` for a nonnegative `n`. -/
def addDays (n : Nat) (d : NaiveDate) : NaiveDate :=
  match n with
  | 0 => d
  | k + 1 => succDay (addDays k d)

/-- Zero-pad a number to two digits, as in chrono's `%m` / `%d`. -/
def pad2 (n : Nat) : String :=
  if n < 10 then "0" ++ toString n else toString n

/-- Zero-pad a (nonnegative) year to four digits, as in chrono's `%Y`. -/
def pad4 (y : Int) : String :=
  let n := y.toNat
  if n < 10 then "000" ++ toString n
  else if n < 100 then "00" ++ toString n
  else if n < 1000 then "0" ++ toString n
  else toString n

/-- `NaiveDate::to_string()`: the ISO-8601 rendering `YYYY-MM-DD`. -/
def naiveDateToString (d : NaiveDate) : String :=
  pad4 d.year ++ "-" ++ pad2 d.month ++ "-" ++ pad2 d.day

/-! ## Data model -/

/-- `struct Task` from the source. -/
structure Task where
  id : Option Nat
  title : String
  date : String
  completed : Bool
  priority : String
deriving DecidableEq, Repr

/-- `struct Comment` from the source. -/
structure Comment where
  id : Option Nat
  title : String
  content : String
deriving DecidableEq, Repr

/-- `struct SubGoal` from the source. -/
structure SubGoal where
  id : Uuid
  title : String
  completed : Bool
  progress : Nat
deriving DecidableEq, Repr

/-- `struct Goal` from the source (`progress : u8` modelled as `Nat`). -/
structure Goal where
  id : Uuid
  title : String
  description : String
  priority : String
  due_date : String
  progress : Nat
  sub_goals : List SubGoal
deriving DecidableEq, Repr

/-- `struct CreateGoal` from the source. -/
structure CreateGoal where
  title : String
  description : String
  priority : String
  due_date : String
deriving DecidableEq, Repr

/-- `struct BotTask` from the source. -/
structure BotTask where
  id : Option Nat
  title : String
  completed : Bool
  is_pomodoro : Bool
deriving DecidableEq, Repr

/-- `struct BotGoal` from the source. -/
structure BotGoal where
  id : Option Uuid
  title : String
  progress : Nat
deriving DecidableEq, Repr

/-! ## Main Task Store handlers -/

/-- `get_tasks`: returns a snapshot of the task list. -/
def get_tasks (tasks : List Task) : List Task := tasks

/-- `add_task`: assigns `id = len + 1`, resolves the symbolic date keyword
against the current local date `today`, appends, and returns the stored
record. -/
def add_task (today : NaiveDate) (tasks : List Task) (task : Task) : List Task × Task :=
  let t1 : Task := { task with id := some (tasks.length + 1) }
  let resolvedDate : String :=
    match t1.date with
    | "Today" => naiveDateToString today
    | "Tomorrow" => naiveDateToString (addDays 1 today)
    | "This Week" => naiveDateToString (addDays 7 today)
    | "This Month" =>
        let next_month :=
          if today.month = 12 then
            (from_ymd_opt (today.year + 1) 1 today.day).getD today
          else
            (from_ymd_opt today.year (today.month + 1) today.day).getD today
        naiveDateToString next_month
    | _ => t1.date
  let t2 : Task := { t1 with date := resolvedDate }
  (tasks ++ [t2], t2)

/-- `complete_task`: sets `completed = true` on the first task whose id
matches, then returns the full (possibly updated) list; a silent no-op when
no task matches. -/
def complete_task : List Task → Nat → List Task
  | [], _ => []
  | t :: ts, task_id =>
      if t.id = some task_id then { t with completed := true } :: ts
      else t :: complete_task ts task_id

/-! ## Comment Store handlers -/

/-- `get_comments`: returns a snapshot of the comment list. -/
def get_comments (comments : List Comment) : List Comment := comments

/-- `add_comment`: assigns `id = len + 1`, appends, returns the stored
record. -/
def add_comment (comments : List Comment) (comment : Comment) : List Comment × Comment :=
  let new_comment : Comment := { comment with id := some (comments.length + 1) }
  (comments ++ [new_comment], new_comment)

/-- `update_comment`: replaces the first comment whose id matches with the
request body, forcing the id back to the path id, and returns the updated
record; `none` (HTTP 404, state untouched) when no comment matches. -/
def update_comment : List Comment → Nat → Comment → List Comment × Option Comment
  | [], _, _ => ([], none)
  | c :: cs, id, body =>
      if c.id = some id then
        let updated : Comment := { body with id := some id }
        (updated :: cs, some updated)
      else
        let r := update_comment cs id body
        (c :: r.fst, r.snd)

/-! ## Goal Store handlers -/

/-- `get_goals`: returns a snapshot of the goal list. -/
def get_goals (goals : List Goal) : List Goal := goals

/-- `create_goal`: builds a goal from the request with a freshly generated
UUID (passed in explicitly), `progress = 0` and no sub-goals, appends it and
returns it. -/
def create_goal (freshUuid : Uuid) (goals : List Goal) (goal : CreateGoal) :
    List Goal × Goal :=
  let new_goal : Goal :=
    { id := freshUuid, title := goal.title, description := goal.description,
      priority := goal.priority, due_date := goal.due_date, progress := 0,
      sub_goals := [] }
  (goals ++ [new_goal], new_goal)

/-- `update_progress`: overwrites only the `progress` field of the first
goal whose id matches and returns it; `none` (HTTP 404, state untouched)
when no goal matches. -/
def update_progress : List Goal → Uuid → Nat → List Goal × Option Goal
  | [], _, _ => ([], none)
  | g :: gs, id, p =>
      if g.id = id then
        let updated : Goal := { g with progress := p }
        (updated :: gs, some updated)
      else
        let r := update_progress gs id p
        (g :: r.fst, r.snd)

/-! ## Music lookup -/

/-- `get_music`: static case-sensitive table from category to URL, with a
default fallback (the `match category.as_str()` in the source). -/
def get_music (category : String) : String :=
  if category = "Relax" then "https://ritika12df.github.io/ritikaaudio/relax.mp3"
  else if category = "Focus" then "https://ritika12df.github.io/ritikaaudio/focus.mp3"
  else if category = "Energize" then "https://ritika12df.github.io/ritikaaudio/energize.mp3"
  else if category = "Sleep" then "https://ritika12df.github.io/ritikaaudio/sleep.mp3"
  else if category = "Meditate" then "https://ritika12df.github.io/ritikaaudio/meditate.mp3"
  else "https://ritika12df.github.io/ritikaaudio/default.mp3"

/-! ## Bot Task Store handlers -/

/-- `get_bot_tasks`: returns a snapshot of the bot task list. -/
def get_bot_tasks (tasks : List BotTask) : List BotTask := tasks

/-- `add_bot_task`: assigns `id = len + 1`, appends, returns the stored
record. -/
def add_bot_task (tasks : List BotTask) (task : BotTask) : List BotTask × BotTask :=
  let new_task : BotTask := { task with id := some (tasks.length + 1) }
  (tasks ++ [new_task], new_task)

/-- `update_bot_task`: overwrites title, completed and is_pomodoro of the
first bot task whose id matches (id untouched) and returns it; `none`
(HTTP 404, state untouched) when no task matches. -/
def update_bot_task : List BotTask → Nat → BotTask → List BotTask × Option BotTask
  | [], _, _ => ([], none)
  | t :: ts, id, body =>
      if t.id = some id then
        let updated : BotTask :=
          { t with title := body.title, completed := body.completed,
                   is_pomodoro := body.is_pomodoro }
        (updated :: ts, some updated)
      else
        let r := update_bot_task ts id body
        (t :: r.fst, r.snd)

/-- `complete_bot_task`: sets `completed = true` on the first bot task whose
id matches and returns it; `none` (HTTP 404, state untouched) when no task
matches. -/
def complete_bot_task : List BotTask → Nat → List BotTask × Option BotTask
  | [], _ => ([], none)
  | t :: ts, task_id =>
      if t.id = some task_id then
        let updated : BotTask := { t with completed := true }
        (updated :: ts, some updated)
      else
        let r := complete_bot_task ts task_id
        (t :: r.fst, r.snd)

/-- `delete_bot_task`: if some record has the id, removes every record with
that id (`Vec::retain`) and reports success `true`; otherwise reports
`false` (HTTP 404) leaving the list unchanged. -/
def delete_bot_task (tasks : List BotTask) (task_id : Nat) : List BotTask × Bool :=
  if tasks.any (fun t => t.id == some task_id) then
    (tasks.filter (fun t => t.id != some task_id), true)
  else
    (tasks, false)

/-! ## Bot Goal Store handlers -/

/-- `get_bot_goals`: returns a snapshot of the bot goal list. -/
def get_bot_goals (goals : List BotGoal) : List BotGoal := goals

/-- `add_bot_goal`: discards any caller-supplied id, assigns a freshly
generated UUID (passed in explicitly), appends, returns the stored
record. -/
def add_bot_goal (freshUuid : Uuid) (goals : List BotGoal) (goal : BotGoal) :
    List BotGoal × BotGoal :=
  let new_goal : BotGoal := { goal with id := some freshUuid }
  (goals ++ [new_goal], new_goal)

/-! ## Initial state (from `main`) -/

/-- Initial task list: empty. -/
def initTasks : List Task := []

/-- Initial comment list: the two seeded comments from `main`. -/
def initComments : List Comment :=
  [ { id := some 1, title := "Market research",
      content := "Find my keynote attached..." },
    { id := some 2, title := "Market research",
      content := "I've added the data..." } ]

/-- Initial goal list: empty. -/
def initGoals : List Goal := []

/-- Initial bot task list: empty. -/
def initBotTasks : List BotTask := []

/-- Initial bot goal list: empty. -/
def initBotGoals : List BotGoal := []

/-! ## Derived notions used by the specification statements -/

/-- Run a sequence of `add` requests against a store, threading the state. -/
def addN {α β : Type} (add : List α → β → List α × α) (init : List α)
    (inputs : List β) : List α :=
  inputs.foldl (fun l b => (add l b).fst) init

/-- The list of ids of the live records of an integer-id store. -/
def idsOf {α : Type} (id : α → Option Nat) (l : List α) : List (Option Nat) :=
  l.map id

/-- The ids `some 1, …, some n`, the shape sequential assignment produces. -/
def seqIds (n : Nat) : List (Option Nat) :=
  (List.range n).map (fun i => some (i + 1))

/-- Task-store states reachable, from startup, by any sequence of `add_task`
(with arbitrary current dates) and `complete_task` calls. -/
inductive TaskReach : List Task → Prop where
  | init : TaskReach initTasks
  | add (l : List Task) (d : NaiveDate) (t : Task) :
      TaskReach l → TaskReach (add_task d l t).fst
  | complete (l : List Task) (id : Nat) :
      TaskReach l → TaskReach (complete_task l id)

/-- Comment-store states reachable, from startup, by any sequence of
`add_comment` and `update_comment` calls. -/
inductive CommentReach : List Comment → Prop where
  | init : CommentReach initComments
  | add (l : List Comment) (c : Comment) :
      CommentReach l → CommentReach (add_comment l c).fst
  | update (l : List Comment) (id : Nat) (c : Comment) :
      CommentReach l → CommentReach (update_comment l id c).fst

/-- Bot-task-store states reachable, from startup, by any sequence of
`add_bot_task`, `update_bot_task` and `complete_bot_task` calls (no
delete). -/
inductive BotTaskReach : List BotTask → Prop where
  | init : BotTaskReach initBotTasks
  | add (l : List BotTask) (t : BotTask) :
      BotTaskReach l → BotTaskReach (add_bot_task l t).fst
  | update (l : List BotTask) (id : Nat) (t : BotTask) :
      BotTaskReach l → BotTaskReach (update_bot_task l id t).fst
  | complete (l : List BotTask) (id : Nat) :
      BotTaskReach l → BotTaskReach (complete_bot_task l id).fst

/-! ## Theorems -/

/-- C9: Music Lookup is a total pure function: each of the five exact
category names maps to its fixed URL, and every other string (including
case variants of the known names) maps to the single default URL; it never
fails. -/
theorem get_music_spec :
    get_music "Relax" = "https://ritika12df.github.io/ritikaaudio/relax.mp3" ∧
    get_music "Focus" = "https://ritika12df.github.io/ritikaaudio/focus.mp3" ∧
    get_music "Energize" = "https://ritika12df.github.io/ritikaaudio/energize.mp3" ∧
    get_music "Sleep" = "https://ritika12df.github.io/ritikaaudio/sleep.mp3" ∧
    get_music "Meditate" = "https://ritika12df.github.io/ritikaaudio/meditate.mp3" ∧
    (∀ s : String,
      s ∉ (["Relax", "Focus", "Energize", "Sleep", "Meditate"] : List String) →
      get_music s = "https://ritika12df.github.io/ritikaaudio/default.mp3") := by
  refine ⟨by decide, by decide, by decide, by decide, by decide, ?_⟩
  intro s hs
  simp only [List.mem_cons, List.not_mem_nil, or_false, not_or] at hs
  obtain ⟨h1, h2, h3, h4, h5⟩ := hs
  simp [get_music, h1, h2, h3, h4, h5]

/-- Witness for C9: a case variant of a known name falls to the default
URL. -/
theorem get_music_spec_witness :
    get_music "focus" = "https://ritika12df.github.io/ritikaaudio/default.mp3" :=
  get_music_spec.2.2.2.2.2 "focus" (by decide)

/-- C10: at startup the Comment Store is pre-seeded with exactly two
comments carrying ids 1 and 2, so `list()` before any add returns those two
records and the first `add()` assigns id 3; all other stores start
empty. -/
theorem initial_state_spec :
    (get_comments initComments).length = 2 ∧
    idsOf Comment.id initComments = [some 1, some 2] ∧
    (∀ c : Comment, (add_comment initComments c).snd.id = some 3) ∧
    initTasks = [] ∧ initGoals = [] ∧ initBotTasks = [] ∧ initBotGoals = [] :=
  ⟨rfl, rfl, fun _ => rfl, rfl, rfl, rfl, rfl⟩

/-- C8: main Task Store `complete(id)` sets `completed = true` on the first
task whose id matches, leaving every other task unchanged, and returns the
full updated list whether or not a match was found; when no task matches it
is a silent no-op. -/
theorem complete_task_spec (id : Nat) :
    (∀ l : List Task, (∀ t ∈ l, t.id ≠ some id) → complete_task l id = l) ∧
    (∀ (l₁ : List Task) (t : Task) (l₂ : List Task),
      (∀ u ∈ l₁, u.id ≠ some id) → t.id = some id →
      complete_task (l₁ ++ t :: l₂) id =
        l₁ ++ { t with completed := true } :: l₂) := by
  constructor
  · intro l h
    induction l with
    | nil => rfl
    | cons t ts ih =>
        rw [complete_task, if_neg (h t (List.mem_cons_self t ts))]
        rw [ih fun u hu => h u (List.mem_cons_of_mem t hu)]
  · intro l₁ t l₂ h1 ht
    induction l₁ with
    | nil => simp [complete_task, ht]
    | cons u us ih =>
        rw [List.cons_append, complete_task,
          if_neg (h1 u (List.mem_cons_self u us)),
          ih fun v hv => h1 v (List.mem_cons_of_mem u hv)]
        rfl

/-- Witness for C8 at concrete inputs: a missing id is a silent no-op, a
present id gets its task completed in place. -/
theorem complete_task_spec_witness :
    complete_task [⟨some 1, "a", "d", false, "p"⟩] 2 =
      [⟨some 1, "a", "d", false, "p"⟩] ∧
    complete_task [⟨some 1, "a", "d", false, "p"⟩] 1 =
      [⟨some 1, "a", "d", true, "p"⟩] :=
  ⟨(complete_task_spec 2).1 [⟨some 1, "a", "d", false, "p"⟩] (by decide),
   (complete_task_spec 1).2 [] ⟨some 1, "a", "d", false, "p"⟩ [] (by simp) rfl⟩

/-- C4: Comment Store `update(id, replacement)` overwrites the first
matching comment's title and content with the replacement's, forces its id
back to the path id, leaves every other comment unchanged and returns the
updated record; when no comment has the id it returns NotFound and leaves
the store unmodified. -/
theorem update_comment_spec (id : Nat) (body : Comment) :
    (∀ l : List Comment, (∀ c ∈ l, c.id ≠ some id) →
      update_comment l id body = (l, none)) ∧
    (∀ (l₁ : List Comment) (c : Comment) (l₂ : List Comment),
      (∀ u ∈ l₁, u.id ≠ some id) → c.id = some id →
      update_comment (l₁ ++ c :: l₂) id body =
        (l₁ ++ { body with id := some id } :: l₂,
         some { body with id := some id }) ∧
      ({ body with id := some id } : Comment).title = body.title ∧
      ({ body with id := some id } : Comment).content = body.content ∧
      ({ body with id := some id } : Comment).id = some id) := by
  constructor
  · intro l h
    induction l with
    | nil => rfl
    | cons c cs ih =>
        rw [update_comment, if_neg (h c (List.mem_cons_self c cs)),
          ih fun u hu => h u (List.mem_cons_of_mem c hu)]
  · intro l₁ c l₂ h1 hc
    refine ⟨?_, rfl, rfl, rfl⟩
    induction l₁ with
    | nil => simp [update_comment, hc]
    | cons u us ih =>
        rw [List.cons_append, update_comment,
          if_neg (h1 u (List.mem_cons_self u us)),
          ih fun v hv => h1 v (List.mem_cons_of_mem u hv)]
        rfl

/-- Witness for C4 at concrete inputs: a present id gets its title and
content replaced with the id preserved; a missing id returns NotFound with
the store untouched. -/
theorem update_comment_spec_witness :
    update_comment [⟨some 1, "a", "x"⟩] 1 ⟨some 9, "b", "y"⟩ =
      ([⟨some 1, "b", "y"⟩], some ⟨some 1, "b", "y"⟩) ∧
    update_comment [⟨some 1, "a", "x"⟩] 2 ⟨some 9, "b", "y"⟩ =
      ([⟨some 1, "a", "x"⟩], none) :=
  ⟨((update_comment_spec 1 ⟨some 9, "b", "y"⟩).2 [] ⟨some 1, "a", "x"⟩ []
      (by simp) rfl).1,
   (update_comment_spec 2 ⟨some 9, "b", "y"⟩).1 [⟨some 1, "a", "x"⟩] (by decide)⟩

/-- C5: Bot Task Store `complete(id)` sets `completed = true` on the first
matching task and returns that single updated record; when no task has the
id it returns NotFound and leaves the collection unmodified. -/
theorem complete_bot_task_spec (id : Nat) :
    (∀ l : List BotTask, (∀ t ∈ l, t.id ≠ some id) →
      complete_bot_task l id = (l, none)) ∧
    (∀ (l₁ : List BotTask) (t : BotTask) (l₂ : List BotTask),
      (∀ u ∈ l₁, u.id ≠ some id) → t.id = some id →
      complete_bot_task (l₁ ++ t :: l₂) id =
        (l₁ ++ { t with completed := true } :: l₂,
         some { t with completed := true }) ∧
      ({ t with completed := true } : BotTask).completed = true) := by
  constructor
  · intro l h
    induction l with
    | nil => rfl
    | cons t ts ih =>
        rw [complete_bot_task, if_neg (h t (List.mem_cons_self t ts)),
          ih fun u hu => h u (List.mem_cons_of_mem t hu)]
  · intro l₁ t l₂ h1 ht
    refine ⟨?_, rfl⟩
    induction l₁ with
    | nil => simp [complete_bot_task, ht]
    | cons u us ih =>
        rw [List.cons_append, complete_bot_task,
          if_neg (h1 u (List.mem_cons_self u us)),
          ih fun v hv => h1 v (List.mem_cons_of_mem u hv)]
        rfl

/-- Witness for C5 at concrete inputs: completing a present id returns the
record with `completed = true`; a missing id returns NotFound with the
collection untouched. -/
theorem complete_bot_task_spec_witness :
    complete_bot_task [⟨some 1, "a", false, false⟩] 1 =
      ([⟨some 1, "a", true, false⟩], some ⟨some 1, "a", true, false⟩) ∧
    complete_bot_task [⟨some 1, "a", false, false⟩] 2 =
      ([⟨some 1, "a", false, false⟩], none) :=
  ⟨((complete_bot_task_spec 1).2 [] ⟨some 1, "a", false, false⟩ []
      (by simp) rfl).1,
   (complete_bot_task_spec 2).1 [⟨some 1, "a", false, false⟩] (by decide)⟩

/-- C7: Goal Store `updateProgress(id, progress)` overwrites only the
`progress` field of the first matching goal — id, title, description,
priority, due_date and sub_goals are unchanged, as are all other goals —
and returns the updated record; when no goal has the id it returns
NotFound and leaves the store unmodified. -/
theorem update_progress_spec (id : Uuid) (p : Nat) :
    (∀ l : List Goal, (∀ g ∈ l, g.id ≠ id) →
      update_progress l id p = (l, none)) ∧
    (∀ (l₁ : List Goal) (g : Goal) (l₂ : List Goal),
      (∀ u ∈ l₁, u.id ≠ id) → g.id = id →
      update_progress (l₁ ++ g :: l₂) id p =
        (l₁ ++ { g with progress := p } :: l₂, some { g with progress := p }) ∧
      ({ g with progress := p } : Goal).progress = p ∧
      ({ g with progress := p } : Goal).id = g.id ∧
      ({ g with progress := p } : Goal).title = g.title ∧
      ({ g with progress := p } : Goal).description = g.description ∧
      ({ g with progress := p } : Goal).priority = g.priority ∧
      ({ g with progress := p } : Goal).due_date = g.due_date ∧
      ({ g with progress := p } : Goal).sub_goals = g.sub_goals) := by
  constructor
  · intro l h
    induction l with
    | nil => rfl
    | cons g gs ih =>
        rw [update_progress, if_neg (h g (List.mem_cons_self g gs)),
          ih fun u hu => h u (List.mem_cons_of_mem g hu)]
  · intro l₁ g l₂ h1 hg
    refine ⟨?_, rfl, rfl, rfl, rfl, rfl, rfl, rfl⟩
    induction l₁ with
    | nil => simp [update_progress, hg]
    | cons u us ih =>
        rw [List.cons_append, update_progress,
          if_neg (h1 u (List.mem_cons_self u us)),
          ih fun v hv => h1 v (List.mem_cons_of_mem u hv)]
        rfl

/-- Witness for C7 at concrete inputs: updating a present id changes only
the `progress` field; a missing id returns NotFound with the store
untouched. -/
theorem update_progress_spec_witness :
    update_progress [⟨7, "t", "d", "hi", "dd", 0, []⟩] 7 42 =
      ([⟨7, "t", "d", "hi", "dd", 42, []⟩], some ⟨7, "t", "d", "hi", "dd", 42, []⟩) ∧
    update_progress [⟨7, "t", "d", "hi", "dd", 0, []⟩] 8 42 =
      ([⟨7, "t", "d", "hi", "dd", 0, []⟩], none) :=
  ⟨((update_progress_spec 7 42).2 [] ⟨7, "t", "d", "hi", "dd", 0, []⟩ []
      (by simp) rfl).1,
   (update_progress_spec 8 42).1 [⟨7, "t", "d", "hi", "dd", 0, []⟩] (by decide)⟩

/-- C6: Bot Task Store `delete(id)`: when some record has the id the
operation succeeds and afterwards `list()` contains no record with that id,
an immediately repeated delete of the same id returns NotFound; when no
record had the id it returns NotFound and leaves the collection
unmodified. -/
theorem delete_bot_task_spec (l : List BotTask) (id : Nat) :
    ((∃ t ∈ l, t.id = some id) →
      (delete_bot_task l id).snd = true ∧
      (∀ t ∈ get_bot_tasks (delete_bot_task l id).fst, t.id ≠ some id) ∧
      delete_bot_task (delete_bot_task l id).fst id =
        ((delete_bot_task l id).fst, false)) ∧
    ((∀ t ∈ l, t.id ≠ some id) → delete_bot_task l id = (l, false)) := by
  constructor
  · intro h
    obtain ⟨t, htl, hid⟩ := h
    have hany : l.any (fun u => u.id == some id) = true :=
      List.any_eq_true.mpr ⟨t, htl, by simp [hid]⟩
    have hDel : delete_bot_task l id =
        (l.filter (fun u => u.id != some id), true) := by
      unfold delete_bot_task
      rw [if_pos hany]
    have hnomem : ∀ u ∈ l.filter (fun v => v.id != some id), u.id ≠ some id := by
      intro u hu
      simpa using (List.mem_filter.mp hu).2
    have hany2 : (l.filter (fun v => v.id != some id)).any
        (fun u => u.id == some id) = false := by
      rw [List.any_eq_false]
      intro u hu
      simpa using hnomem u hu
    have hDel2 : delete_bot_task (l.filter (fun v => v.id != some id)) id =
        (l.filter (fun v => v.id != some id), false) := by
      unfold delete_bot_task
      rw [if_neg]
      simp [hany2]
    refine ⟨?_, ?_, ?_⟩
    · rw [hDel]
    · show ∀ u ∈ (delete_bot_task l id).fst, u.id ≠ some id
      rw [hDel]
      exact hnomem
    · rw [hDel]
      exact hDel2
  · intro h
    have hany : (l.any (fun u => u.id == some id)) = false := by
      rw [List.any_eq_false]
      intro u hu
      simpa using h u hu
    unfold delete_bot_task
    rw [if_neg]
    simp [hany]

/-- Witness for C6 at concrete inputs: deleting a present id removes it and
a second delete reports NotFound; deleting a missing id reports NotFound
and leaves the collection as it was. -/
theorem delete_bot_task_spec_witness :
    ((delete_bot_task [⟨some 1, "a", false, false⟩] 1).snd = true ∧
      (∀ t ∈ get_bot_tasks (delete_bot_task [⟨some 1, "a", false, false⟩] 1).fst,
        t.id ≠ some 1) ∧
      delete_bot_task (delete_bot_task [⟨some 1, "a", false, false⟩] 1).fst 1 =
        ((delete_bot_task [⟨some 1, "a", false, false⟩] 1).fst, false)) ∧
    delete_bot_task [⟨some 1, "a", false, false⟩] 2 =
      ([⟨some 1, "a", false, false⟩], false) :=
  ⟨(delete_bot_task_spec [⟨some 1, "a", false, false⟩] 1).1
      ⟨⟨some 1, "a", false, false⟩, by simp, rfl⟩,
   (delete_bot_task_spec [⟨some 1, "a", false, false⟩] 2).2 (by decide)⟩

/-- C3: Task Store `add()` resolves the incoming date string per the table:
"Today" becomes the current local date, "Tomorrow" the current date plus one
day, "This Week" the current date plus seven days, "This Month" the same
day-of-month in the next calendar month (January of the next year when the
current month is December) falling back to today when that date is invalid,
and every other string is stored verbatim; the returned record carries the
resolved date and is exactly the record appended to the store. -/
theorem add_task_date_spec (today : NaiveDate) (ts : List Task) (t : Task) :
    (add_task today ts t).fst = ts ++ [(add_task today ts t).snd] ∧
    (t.date = "Today" →
      (add_task today ts t).snd.date = naiveDateToString today) ∧
    (t.date = "Tomorrow" →
      (add_task today ts t).snd.date = naiveDateToString (addDays 1 today)) ∧
    (t.date = "This Week" →
      (add_task today ts t).snd.date = naiveDateToString (addDays 7 today)) ∧
    (t.date = "This Month" → today.month = 12 →
      (add_task today ts t).snd.date =
        naiveDateToString ((from_ymd_opt (today.year + 1) 1 today.day).getD today)) ∧
    (t.date = "This Month" → today.month ≠ 12 →
      (add_task today ts t).snd.date =
        naiveDateToString ((from_ymd_opt today.year (today.month + 1) today.day).getD today)) ∧
    (t.date = "This Month" → today.month ≠ 12 →
      from_ymd_opt today.year (today.month + 1) today.day = none →
      (add_task today ts t).snd.date = naiveDateToString today) ∧
    (t.date ∉ (["Today", "Tomorrow", "This Week", "This Month"] : List String) →
      (add_task today ts t).snd.date = t.date) := by
  obtain ⟨tid, ttitle, tdate, tcompleted, tpriority⟩ := t
  refine ⟨rfl, ?_, ?_, ?_, ?_, ?_, ?_, ?_⟩
  · intro hd
    subst hd
    rfl
  · intro hd
    subst hd
    rfl
  · intro hd
    subst hd
    rfl
  · intro hd hm
    subst hd
    simp [add_task, hm]
  · intro hd hm
    subst hd
    simp [add_task, hm]
  · intro hd hm hnone
    subst hd
    simp [add_task, hm, hnone]
  · intro hd
    simp only [List.mem_cons, List.not_mem_nil, or_false, not_or] at hd
    obtain ⟨h1, h2, h3, h4⟩ := hd
    simp only [add_task]

/-- Witness for C3 at concrete inputs (current date 2025-01-31): "Today"
resolves to the current date; "This Month" would be 2025-02-31, which is
invalid, so it falls back to today; a free-text date passes through
verbatim. -/
theorem add_task_date_spec_witness :
    ((⟨2025, 1, 31⟩ : NaiveDate).month ≠ 12 ∧
      from_ymd_opt 2025 2 31 = none) ∧
    (add_task ⟨2025, 1, 31⟩ [] ⟨none, "t", "Today", false, "p"⟩).snd.date =
      naiveDateToString ⟨2025, 1, 31⟩ ∧
    (add_task ⟨2025, 1, 31⟩ [] ⟨none, "t", "This Month", false, "p"⟩).snd.date =
      naiveDateToString ⟨2025, 1, 31⟩ ∧
    (add_task ⟨2025, 1, 31⟩ [] ⟨none, "t", "2025-03-01", false, "p"⟩).snd.date =
      "2025-03-01" :=
  ⟨⟨by decide, by decide⟩,
   (add_task_date_spec ⟨2025, 1, 31⟩ [] ⟨none, "t", "Today", false, "p"⟩).2.1 rfl,
   (add_task_date_spec ⟨2025, 1, 31⟩ []
      ⟨none, "t", "This Month", false, "p"⟩).2.2.2.2.2.2.1 rfl (by decide) (by decide),
   (add_task_date_spec ⟨2025, 1, 31⟩ []
      ⟨none, "t", "2025-03-01", false, "p"⟩).2.2.2.2.2.2.2 (by decide)⟩

/-! ### Helper lemmas about id assignment and iterated adds -/

theorem addN_length {α β : Type} (add : List α → β → List α × α)
    (hstep : ∀ (l : List α) (b : β), (add l b).fst.length = l.length + 1) :
    ∀ (inputs : List β) (init : List α),
      (addN add init inputs).length = init.length + inputs.length := by
  intro inputs
  induction inputs with
  | nil => intro init; simp [addN]
  | cons b bs ih =>
      intro init
      have hstep1 : addN add init (b :: bs) = addN add (add init b).fst bs := rfl
      rw [hstep1, ih, hstep]
      simp only [List.length_cons]
      omega

theorem add_task_length (d : NaiveDate) (l : List Task) (t : Task) :
    (add_task d l t).fst.length = l.length + 1 := by
  simp [add_task]

theorem add_comment_length (l : List Comment) (c : Comment) :
    (add_comment l c).fst.length = l.length + 1 := by
  simp [add_comment]

theorem create_goal_length (u : Uuid) (l : List Goal) (g : CreateGoal) :
    (create_goal u l g).fst.length = l.length + 1 := by
  simp [create_goal]

theorem add_bot_task_length (l : List BotTask) (t : BotTask) :
    (add_bot_task l t).fst.length = l.length + 1 := by
  simp [add_bot_task]

theorem add_bot_goal_length (u : Uuid) (l : List BotGoal) (g : BotGoal) :
    (add_bot_goal u l g).fst.length = l.length + 1 := by
  simp [add_bot_goal]

theorem seqIds_succ (n : Nat) : seqIds (n + 1) = seqIds n ++ [some (n + 1)] := by
  simp [seqIds, List.range_succ]

theorem not_mem_seqIds (n : Nat) : some (n + 1) ∉ seqIds n := by
  simp only [seqIds, List.mem_map, List.mem_range, not_exists, not_and]
  intro i hi
  intro hc
  have : i + 1 = n + 1 := Option.some.injEq _ _ ▸ congrArg (Option.getD · 0) hc
  omega

theorem ids_add_task (d : NaiveDate) (l : List Task) (t : Task) :
    idsOf Task.id (add_task d l t).fst =
      idsOf Task.id l ++ [some (l.length + 1)] := by
  simp [add_task, idsOf]

theorem ids_complete_task (l : List Task) (id : Nat) :
    idsOf Task.id (complete_task l id) = idsOf Task.id l := by
  induction l with
  | nil => rfl
  | cons t ts ih =>
      by_cases h : t.id = some id
      · simp [complete_task, h, idsOf]
      · simp only [complete_task, if_neg h, idsOf, List.map_cons]
        rw [show (complete_task ts id).map Task.id = idsOf Task.id (complete_task ts id) from rfl, ih]
        rfl

theorem ids_add_comment (l : List Comment) (c : Comment) :
    idsOf Comment.id (add_comment l c).fst =
      idsOf Comment.id l ++ [some (l.length + 1)] := by
  simp [add_comment, idsOf]

theorem ids_update_comment (l : List Comment) (id : Nat) (body : Comment) :
    idsOf Comment.id (update_comment l id body).fst = idsOf Comment.id l := by
  induction l with
  | nil => rfl
  | cons c cs ih =>
      by_cases h : c.id = some id
      · simp [update_comment, h, idsOf]
      · simp only [update_comment, if_neg h, idsOf, List.map_cons]
        rw [show ((update_comment cs id body).fst).map Comment.id =
          idsOf Comment.id (update_comment cs id body).fst from rfl, ih]
        rfl

theorem ids_add_bot_task (l : List BotTask) (t : BotTask) :
    idsOf BotTask.id (add_bot_task l t).fst =
      idsOf BotTask.id l ++ [some (l.length + 1)] := by
  simp [add_bot_task, idsOf]

theorem ids_update_bot_task (l : List BotTask) (id : Nat) (body : BotTask) :
    idsOf BotTask.id (update_bot_task l id body).fst = idsOf BotTask.id l := by
  induction l with
  | nil => rfl
  | cons t ts ih =>
      by_cases h : t.id = some id
      · simp [update_bot_task, h, idsOf]
      · simp only [update_bot_task, if_neg h, idsOf, List.map_cons]
        rw [show ((update_bot_task ts id body).fst).map BotTask.id =
          idsOf BotTask.id (update_bot_task ts id body).fst from rfl, ih]
        rfl

theorem ids_complete_bot_task (l : List BotTask) (id : Nat) :
    idsOf BotTask.id (complete_bot_task l id).fst = idsOf BotTask.id l := by
  induction l with
  | nil => rfl
  | cons t ts ih =>
      by_cases h : t.id = some id
      · simp [complete_bot_task, h, idsOf]
      · simp only [complete_bot_task, if_neg h, idsOf, List.map_cons]
        rw [show ((complete_bot_task ts id).fst).map BotTask.id =
          idsOf BotTask.id (complete_bot_task ts id).fst from rfl, ih]
        rfl

theorem length_eq_of_ids_eq {α β : Type} (f : α → Option Nat) (g : β → Option Nat)
    (l : List α) (m : List β) (h : idsOf f l = idsOf g m) : l.length = m.length := by
  have := congrArg List.length h
  simpa [idsOf] using this

theorem taskReach_ids (l : List Task) (h : TaskReach l) :
    idsOf Task.id l = seqIds l.length := by
  induction h with
  | init => rfl
  | add l d t hl ih => rw [ids_add_task, add_task_length, ih, seqIds_succ]
  | complete l id hl ih =>
      have hlen : (complete_task l id).length = l.length :=
        length_eq_of_ids_eq _ _ _ _ (ids_complete_task l id)
      rw [ids_complete_task, hlen, ih]

theorem commentReach_ids (l : List Comment) (h : CommentReach l) :
    idsOf Comment.id l = seqIds l.length := by
  induction h with
  | init => rfl
  | add l c hl ih => rw [ids_add_comment, add_comment_length, ih, seqIds_succ]
  | update l id c hl ih =>
      have hlen : (update_comment l id c).fst.length = l.length :=
        length_eq_of_ids_eq _ _ _ _ (ids_update_comment l id c)
      rw [ids_update_comment, hlen, ih]

theorem botTaskReach_ids (l : List BotTask) (h : BotTaskReach l) :
    idsOf BotTask.id l = seqIds l.length := by
  induction h with
  | init => rfl
  | add l t hl ih => rw [ids_add_bot_task, add_bot_task_length, ih, seqIds_succ]
  | update l id t hl ih =>
      have hlen : (update_bot_task l id t).fst.length = l.length :=
        length_eq_of_ids_eq _ _ _ _ (ids_update_bot_task l id t)
      rw [ids_update_bot_task, hlen, ih]
  | complete l id hl ih =>
      have hlen : (complete_bot_task l id).fst.length = l.length :=
        length_eq_of_ids_eq _ _ _ _ (ids_complete_bot_task l id)
      rw [ids_complete_bot_task, hlen, ih]

/-- C1 counterexample: on the Bot Task Store the claimed freshness fails
once a delete is interleaved.  Add two tasks (ids 1 and 2), delete id 1:
the store still holds the task with id 2, yet the next `add()` computes
`id = length + 1 = 2` and returns a record whose id is already present
among the live records. -/
theorem add_fresh_id_counterexample :
    (add_bot_task (delete_bot_task (add_bot_task (add_bot_task initBotTasks
        ⟨none, "a", false, false⟩).fst ⟨none, "b", false, false⟩).fst 1).fst
      ⟨none, "c", false, false⟩).snd.id ∈
    idsOf BotTask.id (delete_bot_task (add_bot_task (add_bot_task initBotTasks
        ⟨none, "a", false, false⟩).fst ⟨none, "b", false, false⟩).fst 1).fst := by
  decide

/-- C1 (amended): for the stores with sequentially assigned integer ids
(Task, Comment, Bot Task), in every sequential history built from the
store's startup state without a delete — any sequence of add, update and
complete — `add()` returns a record whose id was not previously present
among the live records; interleaving a Bot Task delete can break this, as
the counterexample shows. -/
theorem add_fresh_id_spec :
    (∀ l : List Task, TaskReach l → ∀ (d : NaiveDate) (t : Task),
      (add_task d l t).snd.id ∉ idsOf Task.id l) ∧
    (∀ l : List Comment, CommentReach l → ∀ c : Comment,
      (add_comment l c).snd.id ∉ idsOf Comment.id l) ∧
    (∀ l : List BotTask, BotTaskReach l → ∀ t : BotTask,
      (add_bot_task l t).snd.id ∉ idsOf BotTask.id l) := by
  refine ⟨?_, ?_, ?_⟩
  · intro l hl d t
    have hid : (add_task d l t).snd.id = some (l.length + 1) := rfl
    rw [hid, taskReach_ids l hl]
    exact not_mem_seqIds l.length
  · intro l hl c
    have hid : (add_comment l c).snd.id = some (l.length + 1) := rfl
    rw [hid, commentReach_ids l hl]
    exact not_mem_seqIds l.length
  · intro l hl t
    have hid : (add_bot_task l t).snd.id = some (l.length + 1) := rfl
    rw [hid, botTaskReach_ids l hl]
    exact not_mem_seqIds l.length

/-- Witness for amended C1 at concrete reachable states: the startup
states (the Comment Store's being nonempty). -/
theorem add_fresh_id_spec_witness :
    ((add_task ⟨2025, 5, 5⟩ initTasks ⟨none, "t", "x", false, "p"⟩).snd.id ∉
      idsOf Task.id initTasks) ∧
    ((add_comment initComments ⟨none, "t", "c"⟩).snd.id ∉
      idsOf Comment.id initComments) ∧
    ((add_bot_task initBotTasks ⟨none, "t", false, false⟩).snd.id ∉
      idsOf BotTask.id initBotTasks) :=
  ⟨add_fresh_id_spec.1 initTasks TaskReach.init ⟨2025, 5, 5⟩
      ⟨none, "t", "x", false, "p"⟩,
   add_fresh_id_spec.2.1 initComments CommentReach.init ⟨none, "t", "c"⟩,
   add_fresh_id_spec.2.2 initBotTasks BotTaskReach.init ⟨none, "t", false, false⟩⟩

/-- C2 counterexample: the Comment Store does not start empty, so `list()`
after one successful `add()` from the startup state returns three records,
not one. -/
theorem list_after_addN_counterexample :
    (get_comments (addN add_comment initComments [⟨none, "t", "c"⟩])).length = 3 ∧
    (3 : Nat) ≠ 1 := by
  decide

/-- C2 (amended): from the startup state, `list()` after `n` successful
`add()` calls returns exactly `n` records for the stores that start empty
(Task, Goal, Bot Task, Bot Goal) and `2 + n` records for the pre-seeded
Comment Store; every `add` appends its returned record at the tail, so the
listing is insertion-ordered. -/
theorem list_after_addN_spec :
    (∀ tins : List (NaiveDate × Task),
      (get_tasks (addN (fun l p => add_task p.1 l p.2) initTasks tins)).length =
        tins.length) ∧
    (∀ cins : List Comment,
      (get_comments (addN add_comment initComments cins)).length =
        2 + cins.length) ∧
    (∀ gins : List (Uuid × CreateGoal),
      (get_goals (addN (fun l p => create_goal p.1 l p.2) initGoals gins)).length =
        gins.length) ∧
    (∀ bins : List BotTask,
      (get_bot_tasks (addN add_bot_task initBotTasks bins)).length =
        bins.length) ∧
    (∀ bgins : List (Uuid × BotGoal),
      (get_bot_goals (addN (fun l p => add_bot_goal p.1 l p.2) initBotGoals bgins)).length =
        bgins.length) ∧
    (∀ (d : NaiveDate) (l : List Task) (t : Task),
      (add_task d l t).fst = l ++ [(add_task d l t).snd]) ∧
    (∀ (l : List Comment) (c : Comment),
      (add_comment l c).fst = l ++ [(add_comment l c).snd]) ∧
    (∀ (u : Uuid) (l : List Goal) (g : CreateGoal),
      (create_goal u l g).fst = l ++ [(create_goal u l g).snd]) ∧
    (∀ (l : List BotTask) (t : BotTask),
      (add_bot_task l t).fst = l ++ [(add_bot_task l t).snd]) ∧
    (∀ (u : Uuid) (l : List BotGoal) (g : BotGoal),
      (add_bot_goal u l g).fst = l ++ [(add_bot_goal u l g).snd]) := by
  refine ⟨?_, ?_, ?_, ?_, ?_,
    fun d l t => rfl, fun l c => rfl, fun u l g => rfl,
    fun l t => rfl, fun u l g => rfl⟩
  · intro tins
    simpa [get_tasks, initTasks] using addN_length _ (fun l p => add_task_length p.1 l p.2) tins initTasks
  · intro cins
    simpa [Nat.add_comm] using addN_length _ add_comment_length cins initComments
  · intro gins
    simpa [get_goals, initGoals] using addN_length _ (fun l p => create_goal_length p.1 l p.2) gins initGoals
  · intro bins
    simpa [get_bot_tasks, initBotTasks] using addN_length _ add_bot_task_length bins initBotTasks
  · intro bgins
    simpa [get_bot_goals, initBotGoals] using addN_length _ (fun l p => add_bot_goal_length p.1 l p.2) bgins initBotGoals

end Backend
